import Mathlib

/- Verification of the digest-generation pipeline in
   src/app/api/bluesky/feed/route.ts (the OAuth-based digest route):
   post data model, paginated timeline collector, external-feed pagination,
   uri-deduplication, engagement ranker, model-response mapping, and the
   daily digest cache. -/

namespace BlueskyDigest

/-- Author record of a post (`item.post.author` projection). -/
structure PostAuthor where
  handle : String
  displayName : Option String
  avatar : Option String
deriving DecidableEq

/-- Quoted/embedded post extracted by `extractPost` from the embed field:
`{author: {handle: record.author?.handle}, text}`; the nested handle may be
absent, the text defaults to the empty string. -/
structure QuotedPost where
  handle : Option String
  text : String
deriving DecidableEq

/-- Canonical `Post` built by `extractPost`. `createdAt` is the raw string from
the record payload, defaulting to `""` when absent. Counts default to 0. -/
structure Post where
  uri : String
  author : PostAuthor
  text : String
  createdAt : String
  likeCount : Nat
  repostCount : Nat
  replyCount : Nat
  quotedPost : Option QuotedPost
deriving DecidableEq

/-- Projection of a post placed into a notable-post entry (lines 766-774):
the same fields minus `createdAt`. -/
structure NotablePost where
  uri : String
  author : PostAuthor
  text : String
  likeCount : Nat
  repostCount : Nat
  replyCount : Nat
  quotedPost : Option QuotedPost
deriving DecidableEq

/-- The field projection applied to a ranked post when it is returned as a
notable post. -/
def Post.toNotable (p : Post) : NotablePost :=
  ⟨p.uri, p.author, p.text, p.likeCount, p.repostCount, p.replyCount, p.quotedPost⟩

/-! ### Timeline collector (GET, lines 646-677) and external feed pagination
(`fetchAIFeedPosts`, lines 399-449).

`new Date(s)` is modelled by a parameter `dateVal : String → Option Int`
giving the millisecond value of a parseable date string and `none` for an
invalid date (JS `new Date("")` is an Invalid Date whose comparisons are all
false, which the `Option` model reproduces: every comparison against `none`
is false). -/

/-- The test `postDate < twentyFourHoursAgo` (line 663 / line 430): true only
when the post's `createdAt` parses to a time strictly below the cutoff.
An invalid date (NaN) compares false. -/
def isOldPost (dateVal : String → Option Int) (cutoff : Int) (p : Post) : Bool :=
  match dateVal p.createdAt with
  | some t => decide (t < cutoff)
  | none => false

/-- Mutable state of the pagination loop: the `allPosts` accumulator and the
consecutive-old-post counter `oldPostCount`. -/
structure CollectState where
  allPosts : List Post
  oldPostCount : Nat
deriving DecidableEq

/-- The `for (const item of timeline.data.feed)` body (lines 659-669 /
426-436): an old post increments the counter and is not retained; any other
post resets the counter to zero and is appended. -/
def processPage (isOld : Post → Bool) (st : CollectState) (page : List Post) : CollectState :=
  page.foldl
    (fun s p =>
      if isOld p then ⟨s.allPosts, s.oldPostCount + 1⟩
      else ⟨s.allPosts ++ [p], 0⟩)
    st

/-- The `while (true)` pagination loop (lines 652-677 / 417-442), over the
sequence of pages the upstream serves: an empty page breaks immediately;
otherwise the whole page is processed and then the stop conditions are
checked — counter at or past `maxOld`, no cursor (no further page), or
retained count strictly above `hardCap`. -/
def collectPages (maxOld hardCap : Nat) (isOld : Post → Bool) :
    List (List Post) → CollectState → CollectState
  | [], st => st
  | page :: rest, st =>
    if page.isEmpty then st
    else
      if maxOld ≤ (processPage isOld st page).oldPostCount || rest.isEmpty ||
          hardCap < (processPage isOld st page).allPosts.length then
        processPage isOld st page
      else collectPages maxOld hardCap isOld rest (processPage isOld st page)

/-- Page size requested from `agent.getTimeline` (line 653). -/
def TIMELINE_PAGE_LIMIT : Nat := 100

/-- `MAX_OLD_POSTS` of the timeline collector (line 650). -/
def TIMELINE_MAX_OLD_POSTS : Nat := 20

/-- Hard cap of the timeline collector: `allPosts.length > 1000` (line 674). -/
def TIMELINE_HARD_CAP : Nat := 1000

/-- Page size requested from `agent.app.bsky.feed.getFeed` (line 420). -/
def AIFEED_PAGE_LIMIT : Nat := 100

/-- `MAX_OLD_POSTS` of `fetchAIFeedPosts` (line 415). -/
def AIFEED_MAX_OLD_POSTS : Nat := 10

/-- Hard cap of `fetchAIFeedPosts`: `allPosts.length > 500` (line 439). -/
def AIFEED_HARD_CAP : Nat := 500

/-- The timeline collector's pagination loop started on an empty accumulator
(lines 646-677). -/
def collectTimeline (dateVal : String → Option Int) (cutoff : Int)
    (pages : List (List Post)) : CollectState :=
  collectPages TIMELINE_MAX_OLD_POSTS TIMELINE_HARD_CAP (isOldPost dateVal cutoff) pages ⟨[], 0⟩

/-- The per-feed pagination loop of `fetchAIFeedPosts` (lines 417-442):
`oldPostCount` restarts at 0 for each configured feed while `allPosts`
accumulates across feeds, so the loop for one feed starts from the list
already collected. -/
def collectAIFeed (dateVal : String → Option Int) (cutoff : Int)
    (accumulated : List Post) (pages : List (List Post)) : CollectState :=
  collectPages AIFEED_MAX_OLD_POSTS AIFEED_HARD_CAP (isOldPost dateVal cutoff) pages
    ⟨accumulated, 0⟩

/-- Concrete date model used to evaluate the collector on closed inputs: the
empty string is an invalid date (as `new Date("")` is), any other string is
given its length as timestamp. -/
def jsDate (s : String) : Option Int :=
  if s.isEmpty then none else some (s.length : Int)

/-! ### Deduplication by uri (lines 679-685 and 715-721). -/

/-- The `seen`-set filter: keep a post exactly when its `uri` was not seen
before, adding each kept `uri` to the set. -/
def dedupeAux : List String → List Post → List Post
  | _, [] => []
  | seen, p :: rest =>
    if p.uri ∈ seen then dedupeAux seen rest
    else p :: dedupeAux (p.uri :: seen) rest

/-- Deduplication of the collected posts by `uri`, first occurrence wins. -/
def dedupeByUri (ps : List Post) : List Post :=
  dedupeAux [] ps

/-! ### Date range of collected posts (lines 687-698). -/

/-- The scan set for the date range: `posts.filter((p) => p.createdAt)` —
JS string truthiness keeps exactly the posts with a non-empty `createdAt`. -/
def postsWithDates (ps : List Post) : List Post :=
  ps.filter (fun p => !p.createdAt.isEmpty)

/-- The comparison `new Date(a.createdAt) < new Date(b.createdAt)`: false
whenever either date is invalid. -/
def olderB (dateVal : String → Option Int) (a b : Post) : Bool :=
  match dateVal a.createdAt, dateVal b.createdAt with
  | some x, some y => decide (x < y)
  | _, _ => false

/-- The comparison `new Date(a.createdAt) > new Date(b.createdAt)`: false
whenever either date is invalid. -/
def newerB (dateVal : String → Option Int) (a b : Post) : Bool :=
  match dateVal a.createdAt, dateVal b.createdAt with
  | some x, some y => decide (y < x)
  | _, _ => false

/-- `postsWithDates.reduce((oldest, post) => ... ? post : oldest)` guarded by
the length check: `null` on an empty scan set. -/
def oldestPost (dateVal : String → Option Int) (ps : List Post) : Option Post :=
  match postsWithDates ps with
  | [] => none
  | h :: t => some (t.foldl (fun acc p => if olderB dateVal p acc then p else acc) h)

/-- `postsWithDates.reduce((newest, post) => ... ? post : newest)` guarded by
the length check: `null` on an empty scan set. -/
def newestPost (dateVal : String → Option Int) (ps : List Post) : Option Post :=
  match postsWithDates ps with
  | [] => none
  | h :: t => some (t.foldl (fun acc p => if newerB dateVal p acc then p else acc) h)

/-! ### Engagement ranker (lines 510-512 and 723-731). -/

/-- `calculateEngagementScore`: `likeCount + repostCount * 2 +
replyCount * 1.5`, over exact rationals. -/
def calculateEngagementScore (p : Post) : ℚ :=
  (p.likeCount : ℚ) + (p.repostCount : ℚ) * 2 + (p.replyCount : ℚ) * 1.5

/-- Comparator of the sort at lines 723-730: `(a, b) => score(b) - score(a)`
orders by descending score; as a Boolean "may precede" relation for a stable
sort this is `score b ≤ score a`. -/
def scoreDescB (a b : Post) : Bool :=
  decide (calculateEngagementScore b ≤ calculateEngagementScore a)

/-- Number of ranked posts kept for the digest: `slice(0, 150)`. -/
def RANKED_LIMIT : Nat := 150

/-- `[...posts].sort(byScoreDescending).slice(0, 150)`: stable sort by
descending engagement score, truncated to the first 150. -/
def rankPosts (ps : List Post) : List Post :=
  (ps.mergeSort scoreDescB).take RANKED_LIMIT

/-! ### Model-response mapping (lines 761-779). -/

/-- One entry of the parsed model response's `notablePosts` array. -/
structure NotableRef where
  postIndex : Int
  reason : String
deriving DecidableEq

/-- One entry of the digest's notable-post output. -/
structure NotableEntry where
  post : NotablePost
  reason : String
deriving DecidableEq

/-- JS array subscripting `ps[i]` with an integer index: `undefined` (`none`)
for a negative or out-of-bounds index. -/
def jsElem (ps : List Post) (i : Int) : Option Post :=
  if 0 ≤ i then ps.get? i.toNat else none

/-- The `.map` step (lines 761-778): each response entry becomes
`{post: postsForDigest[postIndex - 1] projected, or null; reason}`. -/
def notablePostsRaw (ranked : List Post) (ns : List NotableRef) :
    List (Option NotablePost × String) :=
  ns.map (fun n => ((jsElem ranked (n.postIndex - 1)).map Post.toNotable, n.reason))

/-- The mapped entries after `.filter((p) => p.post !== null)` (line 779). -/
def notablePostsWithData (ranked : List Post) (ns : List NotableRef) : List NotableEntry :=
  (notablePostsRaw ranked ns).filterMap (fun e => e.1.map (fun p => ⟨p, e.2⟩))

/-! ### Digest cache (lines 330-373) and the GET cache path (lines 594-608,
797-805). -/

/-- The `DigestType` union: `"ai"` when `type=ai`, otherwise `"general"`. -/
inductive DigestType
  | general
  | ai
deriving DecidableEq

/-- The string interpolated into the cache key for each digest type. -/
def DigestType.toKey : DigestType → String
  | .general => "general"
  | .ai => "ai"

/-- The `meta` block assembled at lines 785-794. -/
structure DigestMeta where
  totalPosts : Nat
  postsAnalyzed : Nat
  newestPostDate : Option String
  oldestPostDate : Option String
  generatedAt : String
  digestType : DigestType
  keywordMatches : Option Nat
  feedPostCount : Option Nat
deriving DecidableEq

/-- The digest object built at lines 781-795 and stored in the cache. -/
structure Digest where
  overview : String
  notablePosts : List NotableEntry
  trendingTopics : List String
  meta : DigestMeta
deriving DecidableEq

/-- The `DigestCache` record persisted to the key-value store (lines 330-343):
the digest plus the UTC date string of the write. -/
structure DigestCacheRecord where
  digest : Digest
  date : String
deriving DecidableEq

/-- State of the backing key-value store, as a map from keys to stored
records. -/
def KVStore : Type := String → Option DigestCacheRecord

/-- `getCacheKey` (lines 347-350): `digest:{type}:{UTC date}`, with the
current UTC calendar date passed explicitly. -/
def getCacheKey (t : DigestType) (today : String) : String :=
  "digest:" ++ t.toKey ++ ":" ++ today

/-- `getCache` over a healthy store (lines 352-360): `kv.get` on the day's
key. -/
def getCache (kv : KVStore) (t : DigestType) (today : String) : Option DigestCacheRecord :=
  kv (getCacheKey t today)

/-- `setCache` over a healthy store (lines 362-373): write `{digest, date:
today}` under the day's key, fully replacing any prior record there. -/
def setCache (kv : KVStore) (t : DigestType) (d : Digest) (today : String) : KVStore :=
  fun k => if k = getCacheKey t today then some ⟨d, today⟩ else kv k

/-- The JSON body served by the route: the digest's fields spread together
with `digestType` and the `cached` annotation. -/
structure DigestResponse where
  digest : Digest
  digestType : DigestType
  cached : Bool
deriving DecidableEq

/-- The cache-check prologue of GET (lines 599-608): unless `refresh` was
requested, a cache hit is served as `{...cached.digest, digestType,
cached: true}`; a miss yields nothing and generation proceeds. -/
def cacheCheck (kv : KVStore) (t : DigestType) (today : String) (refresh : Bool) :
    Option DigestResponse :=
  if refresh then none
  else
    match getCache kv t today with
    | some c => some ⟨c.digest, t, true⟩
    | none => none

/-- `getCache` over a fallible backing store (lines 352-360): the `try` block
runs `kv.get`, the `catch` logs and returns `null`. -/
def getCacheFallible (kvRead : String → Except String (Option DigestCacheRecord))
    (t : DigestType) (today : String) : Option DigestCacheRecord :=
  match kvRead (getCacheKey t today) with
  | .ok v => v
  | .error _ => none

/-- `setCache` over a fallible backing store (lines 362-373): the `try` block
runs `kv.set`, the `catch` logs; a failing write leaves the store as it was. -/
def setCacheFallible (kvWrite : String → DigestCacheRecord → Except String KVStore)
    (kv : KVStore) (t : DigestType) (d : Digest) (today : String) : KVStore :=
  match kvWrite (getCacheKey t today) ⟨d, today⟩ with
  | .ok kv2 => kv2
  | .error _ => kv

/-- The success response of a fresh generation (line 801): the digest with
`cached: false`. -/
def freshResponse (t : DigestType) (d : Digest) : DigestResponse :=
  ⟨d, t, false⟩

/-- The GET flow around the cache with a fallible read: serve the cache-check
result when there is one, otherwise generate and serve fresh (lines 599-608
and 800-805). -/
def digestFlow (kvRead : String → Except String (Option DigestCacheRecord))
    (t : DigestType) (today : String) (refresh : Bool) (generated : Digest) :
    DigestResponse :=
  let hit :=
    if refresh then none
    else
      match getCacheFallible kvRead t today with
      | some c => some (⟨c.digest, t, true⟩ : DigestResponse)
      | none => none
  match hit with
  | some r => r
  | none => freshResponse t generated

/-- The tail of a successful generation (lines 797-805): write the cache,
swallowing a write failure, then serve the fresh digest; the response is
built after — and independently of — the write outcome. -/
def successTail (kvWrite : String → DigestCacheRecord → Except String KVStore)
    (kv : KVStore) (t : DigestType) (d : Digest) (today : String) :
    KVStore × DigestResponse :=
  (setCacheFallible kvWrite kv t d today, freshResponse t d)

/-! ### Concrete sample values used by closed witnesses and counterexamples. -/

/-- A sample post with a parseable (length-3) timestamp. -/
def samplePost : Post :=
  ⟨"at://p/1", ⟨"alice", none, none⟩, "hello", "xxx", 3, 1, 2, none⟩

/-- A sample post whose `createdAt` parses below the cutoff 2 under `jsDate`. -/
def oldSample : Post :=
  ⟨"at://old/1", ⟨"bob", none, none⟩, "old", "x", 0, 0, 0, none⟩

/-- A sample post whose `createdAt` parses at or above the cutoff 2 under
`jsDate`. -/
def newSample : Post :=
  ⟨"at://new/1", ⟨"carol", none, none⟩, "new", "xxx", 0, 0, 0, none⟩

/-- A sample post with an empty `createdAt` (unknown age). -/
def noDateSample : Post :=
  ⟨"at://nodate/1", ⟨"dan", none, none⟩, "nodate", "", 0, 0, 0, none⟩

/-! ### Helper lemmas. -/

/-- The ranking comparator is transitive. -/
theorem scoreDescB_trans (a b c : Post) (hab : scoreDescB a b = true)
    (hbc : scoreDescB b c = true) : scoreDescB a c = true := by
  simp only [scoreDescB, decide_eq_true_eq] at *
  exact le_trans hbc hab

/-- The ranking comparator is total. -/
theorem scoreDescB_total (a b : Post) : (scoreDescB a b || scoreDescB b a) = true := by
  simp only [scoreDescB, Bool.or_eq_true, decide_eq_true_eq]
  exact le_total _ _

/-- Deduplication output is a sublist of its input. -/
theorem dedupeAux_sublist (seen : List String) (ps : List Post) :
    (dedupeAux seen ps).Sublist ps := by
  induction ps generalizing seen with
  | nil => simp [dedupeAux]
  | cons p rest ih =>
    simp only [dedupeAux]
    split
    · exact (ih seen).cons p
    · exact (ih (p.uri :: seen)).cons₂ p

/-- No element of the deduplication output carries a uri from the seen set. -/
theorem dedupeAux_not_seen {seen : List String} {ps : List Post} {q : Post}
    (h : q ∈ dedupeAux seen ps) : q.uri ∉ seen := by
  induction ps generalizing seen with
  | nil => simp [dedupeAux] at h
  | cons p rest ih =>
    simp only [dedupeAux] at h
    split at h
    · exact ih h
    · rcases List.mem_cons.mp h with rfl | hmem
      · assumption
      · intro hq
        exact ih hmem (List.mem_cons_of_mem _ hq)

/-- No two elements of the deduplication output share a uri. -/
theorem dedupeAux_pairwise (seen : List String) (ps : List Post) :
    (dedupeAux seen ps).Pairwise (fun a b => a.uri ≠ b.uri) := by
  induction ps generalizing seen with
  | nil => simp [dedupeAux]
  | cons p rest ih =>
    simp only [dedupeAux]
    split
    · exact ih seen
    · refine List.Pairwise.cons ?_ (ih (p.uri :: seen))
      intro b hb heq
      exact dedupeAux_not_seen hb (heq ▸ List.mem_cons_self _ _)

/-- Every element of the deduplication output is the first occurrence of its
uri in the input list. -/
theorem dedupeAux_first (seen : List String) (ps : List Post) (q : Post)
    (h : q ∈ dedupeAux seen ps) : ps.find? (fun r => r.uri == q.uri) = some q := by
  induction ps generalizing seen with
  | nil => simp [dedupeAux] at h
  | cons p rest ih =>
    simp only [dedupeAux] at h
    split at h
    · have hq : q.uri ∉ seen := dedupeAux_not_seen h
      have hne : (p.uri == q.uri) = false := by
        simp only [beq_eq_false_iff_ne, ne_eq]
        intro heq
        exact hq (heq ▸ (by assumption))
      rw [List.find?_cons, hne]
      exact ih seen h
    · rcases List.mem_cons.mp h with rfl | hmem
      · have hpos : (q.uri == q.uri) = true := by simp
        rw [List.find?_cons, hpos]
      · have hq : q.uri ∉ p.uri :: seen := dedupeAux_not_seen hmem
        have hne : (p.uri == q.uri) = false := by
          simp only [beq_eq_false_iff_ne, ne_eq]
          intro heq
          exact hq (heq ▸ List.mem_cons_self _ _)
        rw [List.find?_cons, hne]
        exact ih (p.uri :: seen) hmem

/-- Processing a concatenation of two item runs is processing one after the
other. -/
theorem processPage_append (isOld : Post → Bool) (st : CollectState) (xs ys : List Post) :
    processPage isOld st (xs ++ ys) = processPage isOld (processPage isOld st xs) ys := by
  simp [processPage, List.foldl_append]

/-- A run of posts that all test old leaves the retained list unchanged and
adds the run's length to the consecutive-old counter. -/
theorem processPage_all_old (isOld : Post → Bool) (page : List Post)
    (h : ∀ p ∈ page, isOld p = true) (st : CollectState) :
    processPage isOld st page = ⟨st.allPosts, st.oldPostCount + page.length⟩ := by
  induction page generalizing st with
  | nil => simp [processPage]
  | cons p rest ih =>
    have hp : isOld p = true := h p (List.mem_cons_self _ _)
    simp only [processPage, List.foldl_cons, hp, if_true]
    rw [show List.foldl _ _ rest = processPage isOld ⟨st.allPosts, st.oldPostCount + 1⟩ rest
        from rfl]
    rw [ih (fun q hq => h q (List.mem_cons_of_mem _ hq)) ⟨st.allPosts, st.oldPostCount + 1⟩]
    simp only [CollectState.mk.injEq, List.length_cons]
    exact ⟨trivial, by omega⟩

/-- A page grows the retained list by at most the page's item count. -/
theorem processPage_length_le (isOld : Post → Bool) (st : CollectState) (page : List Post) :
    (processPage isOld st page).allPosts.length ≤ st.allPosts.length + page.length := by
  induction page generalizing st with
  | nil => simp [processPage]
  | cons p rest ih =>
    simp only [processPage, List.foldl_cons] at ih ⊢
    split
    · exact le_trans (ih _) (by simp only [List.length_cons]; omega)
    · refine le_trans (ih _) ?_
      simp only [List.length_append, List.length_cons, List.length_nil]
      omega

/-- Whenever the loop continues past a page it carries at most `cap` retained
posts, so with pages of at most `L` items the retained list never exceeds
`cap + L`. -/
theorem collectPages_length_le (maxOld cap L : Nat) (isOld : Post → Bool)
    (pages : List (List Post)) (st : CollectState)
    (hpages : ∀ page ∈ pages, page.length ≤ L)
    (hst : st.allPosts.length ≤ cap) :
    (collectPages maxOld cap isOld pages st).allPosts.length ≤ cap + L := by
  induction pages generalizing st with
  | nil => exact le_trans hst (Nat.le_add_right _ _)
  | cons page rest ih =>
    simp only [collectPages]
    split
    · exact le_trans hst (Nat.le_add_right _ _)
    · have h2 : (processPage isOld st page).allPosts.length ≤ cap + L := by
        refine le_trans (processPage_length_le isOld st page) ?_
        have := hpages page (List.mem_cons_self _ _)
        omega
      split
      · exact h2
      · next hcond =>
        simp only [Bool.or_eq_true, not_or, decide_eq_true_eq] at hcond
        exact ih (processPage isOld st page)
          (fun pg hm => hpages pg (List.mem_cons_of_mem _ hm))
          (Nat.le_of_not_lt hcond.2)

/-! ### Claim theorems. -/

/-- C5: for every post the engagement score is
`likes + 2*reposts + 1.5*replies`, and for every input list the ranked output
has non-increasing scores across consecutive elements and at most 150
posts. -/
theorem C5_engagement_ranker :
    (∀ p : Post, calculateEngagementScore p =
        (p.likeCount : ℚ) + 2 * (p.repostCount : ℚ) + 1.5 * (p.replyCount : ℚ)) ∧
    (∀ ps : List Post,
        List.Chain' (fun a b => calculateEngagementScore b ≤ calculateEngagementScore a)
          (rankPosts ps) ∧
        (rankPosts ps).length ≤ 150) := by
  constructor
  · intro p
    simp only [calculateEngagementScore]
    ring
  · intro ps
    constructor
    · have hs := List.sorted_mergeSort scoreDescB_trans scoreDescB_total ps
      have htake : (rankPosts ps).Pairwise (fun a b => scoreDescB a b = true) :=
        List.Pairwise.sublist (List.take_sublist _ _) hs
      exact (htake.imp (fun h => by simpa [scoreDescB] using h)).chain'
    · have h := List.length_take_le RANKED_LIMIT (ps.mergeSort scoreDescB)
      simp only [rankPosts]
      exact le_trans h (by norm_num [RANKED_LIMIT])

/-- C6: deduplication by uri yields pairwise-distinct uris, is a sublist of
the input (so the relative order of the kept first occurrences is preserved),
and every output element is the first occurrence of its uri in the input. -/
theorem C6_dedupe_by_uri (ps : List Post) :
    (dedupeByUri ps).Pairwise (fun a b => a.uri ≠ b.uri) ∧
    (dedupeByUri ps).Sublist ps ∧
    ∀ q ∈ dedupeByUri ps, ps.find? (fun r => r.uri == q.uri) = some q := by
  refine ⟨dedupeAux_pairwise [] ps, dedupeAux_sublist [] ps, ?_⟩
  intro q hq
  exact dedupeAux_first [] ps q hq

/-- C6 witness: the dedup guarantees evaluated on a concrete two-element list
sharing a uri. -/
theorem C6_dedupe_by_uri_witness :
    (dedupeByUri [samplePost, samplePost]).Pairwise (fun a b => a.uri ≠ b.uri) ∧
    [samplePost, samplePost].find? (fun r => r.uri == samplePost.uri) = some samplePost := by
  refine ⟨(C6_dedupe_by_uri [samplePost, samplePost]).1, ?_⟩
  exact (C6_dedupe_by_uri [samplePost, samplePost]).2.2 samplePost (by decide)

/-- Claim C2 (amended): the Topic Filter's external-feed pagination is the
same loop as the Timeline Collector's with the same page size (100), but BOTH
its hard cap and its consecutive-old-post stop threshold are halved: hard cap
500 and threshold 10, not the Collector's threshold 20. -/
theorem C2_feed_pagination_policy :
    (∀ (dateVal : String → Option Int) (cutoff : Int) (acc : List Post)
        (pages : List (List Post)),
      collectAIFeed dateVal cutoff acc pages =
        collectPages 10 500 (isOldPost dateVal cutoff) pages ⟨acc, 0⟩) ∧
    AIFEED_PAGE_LIMIT = TIMELINE_PAGE_LIMIT ∧
    2 * AIFEED_MAX_OLD_POSTS = TIMELINE_MAX_OLD_POSTS ∧
    2 * AIFEED_HARD_CAP = TIMELINE_HARD_CAP :=
  ⟨fun _ _ _ _ => rfl, rfl, rfl, rfl⟩

/-- Claim C2 counterexample: the external-feed loop does not follow the
Collector's stop threshold of 20 — on twelve single-old-post pages followed
by one new-post page it stops after ten pages with nothing retained, while
the claimed threshold-20 policy (with the halved cap) retains the trailing
new post. -/
theorem C2_counterexample :
    AIFEED_MAX_OLD_POSTS ≠ TIMELINE_MAX_OLD_POSTS ∧
    collectAIFeed jsDate 2 [] (List.replicate 12 [oldSample] ++ [[newSample]]) ≠
      collectPages TIMELINE_MAX_OLD_POSTS AIFEED_HARD_CAP (isOldPost jsDate 2)
        (List.replicate 12 [oldSample] ++ [[newSample]]) ⟨[], 0⟩ := by
  decide

/-- Claim C3 (amended): on a feed of old posts delivered as a single page
followed by no more pages, the collector stops at its first between-page stop
check, having counted every old post of the page (25 on a 25-post page, not
20), and the retained post list at exit is empty. -/
theorem C3_single_page_old_run (dateVal : String → Option Int) (cutoff : Int)
    (olds : List Post) (holds : ∀ p ∈ olds, isOldPost dateVal cutoff p = true) :
    collectTimeline dateVal cutoff [olds] = ⟨[], olds.length⟩ := by
  rcases olds with _ | ⟨p, rest⟩
  · simp [collectTimeline, collectPages]
  · have hpage := processPage_all_old (isOldPost dateVal cutoff) (p :: rest) holds ⟨[], 0⟩
    simp [collectTimeline, collectPages, hpage]

/-- Claim C3 witness: the amended statement evaluated on a single page of 25
old posts: the final counter is 25 and the retained list is empty. -/
theorem C3_single_page_old_run_witness :
    (∀ p ∈ List.replicate 25 oldSample, isOldPost jsDate 2 p = true) ∧
    collectTimeline jsDate 2 [List.replicate 25 oldSample] = ⟨[], 25⟩ := by
  refine ⟨by decide, ?_⟩
  have h := C3_single_page_old_run jsDate 2 (List.replicate 25 oldSample) (by decide)
  simpa using h

/-- Claim C3 counterexample: on the 25-old-post single-page feed the
consecutive-old counter at exit is 25, not the claimed 20 (the stop
conditions are only evaluated between pages), though the retained list is
indeed empty. -/
theorem C3_counterexample :
    (collectTimeline jsDate 2 [List.replicate 25 oldSample]).oldPostCount = 25 ∧
    (collectTimeline jsDate 2 [List.replicate 25 oldSample]).oldPostCount ≠ 20 ∧
    (collectTimeline jsDate 2 [List.replicate 25 oldSample]).allPosts = [] := by
  decide

/-- Claim C4: on a page of shape `[new, new, old×20, new]` with stop
threshold 20, the trailing new post resets the counter to zero and is
retained; the collector does not stop before processing it. -/
theorem C4_counter_reset (dateVal : String → Option Int) (cutoff : Int)
    (a1 a2 b : Post) (olds : List Post)
    (h1 : isOldPost dateVal cutoff a1 = false)
    (h2 : isOldPost dateVal cutoff a2 = false)
    (hb : isOldPost dateVal cutoff b = false)
    (holds : ∀ p ∈ olds, isOldPost dateVal cutoff p = true)
    (_hlen : olds.length = 20) :
    collectTimeline dateVal cutoff [[a1, a2] ++ olds ++ [b]] = ⟨[a1, a2, b], 0⟩ := by
  have e1 : processPage (isOldPost dateVal cutoff) ⟨[], 0⟩ [a1, a2] = ⟨[a1, a2], 0⟩ := by
    simp [processPage, h1, h2]
  have hpage : processPage (isOldPost dateVal cutoff) ⟨[], 0⟩ ([a1, a2] ++ olds ++ [b])
      = ⟨[a1, a2, b], 0⟩ := by
    rw [processPage_append, processPage_append, e1,
      processPage_all_old (isOldPost dateVal cutoff) olds holds]
    simp [processPage, hb]
  simp only [collectTimeline, collectPages]
  simp only [List.cons_append, List.nil_append] at hpage ⊢
  simp [hpage]

/-- Claim C4 witness: the `[new, new, old×20, new]` page evaluated on
concrete posts — all three new posts are retained and the counter is 0. -/
theorem C4_counter_reset_witness :
    (∀ p ∈ List.replicate 20 oldSample, isOldPost jsDate 2 p = true) ∧
    collectTimeline jsDate 2
        [[newSample, newSample] ++ List.replicate 20 oldSample ++ [newSample]]
      = ⟨[newSample, newSample, newSample], 0⟩ :=
  ⟨by decide,
    C4_counter_reset jsDate 2 newSample newSample newSample (List.replicate 20 oldSample)
      (by decide) (by decide) (by decide) (by decide) (by decide)⟩

/-- Claim C10: the timeline collector checks its stop conditions only between
pages, so with the upstream honouring the requested page size of 100 the
retained list can overshoot the hard cap of 1000 by at most one page: its
length at exit is at most 1100. -/
theorem C10_hard_cap_overshoot (dateVal : String → Option Int) (cutoff : Int)
    (pages : List (List Post))
    (hpages : ∀ page ∈ pages, page.length ≤ TIMELINE_PAGE_LIMIT) :
    (collectTimeline dateVal cutoff pages).allPosts.length ≤
      TIMELINE_HARD_CAP + TIMELINE_PAGE_LIMIT ∧
    TIMELINE_HARD_CAP + TIMELINE_PAGE_LIMIT = 1100 := by
  refine ⟨?_, rfl⟩
  exact collectPages_length_le TIMELINE_MAX_OLD_POSTS TIMELINE_HARD_CAP TIMELINE_PAGE_LIMIT
    (isOldPost dateVal cutoff) pages ⟨[], 0⟩ hpages (by simp [TIMELINE_HARD_CAP])

/-- Claim C10 witness: the overshoot bound applied to a concrete one-page
feed. -/
theorem C10_hard_cap_overshoot_witness :
    (∀ page ∈ [[newSample]], page.length ≤ TIMELINE_PAGE_LIMIT) ∧
    (collectTimeline jsDate 2 [[newSample]]).allPosts.length ≤
      TIMELINE_HARD_CAP + TIMELINE_PAGE_LIMIT :=
  ⟨by decide, (C10_hard_cap_overshoot jsDate 2 [[newSample]] (by decide)).1⟩

/-- Claim C7: a cache write followed by a read under the same digest type and the
same UTC calendar date returns exactly the stored record, and the response
served from that hit is the stored digest annotated `cached: true`. -/
theorem C7_cache_round_trip (kv : KVStore) (t : DigestType) (d : Digest) (today : String) :
    getCache (setCache kv t d today) t today = some ⟨d, today⟩ ∧
    cacheCheck (setCache kv t d today) t today false = some ⟨d, t, true⟩ := by
  constructor
  · simp [getCache, setCache]
  · simp [cacheCheck, getCache, setCache]

/-- Claim C8: a failing backing-store read behaves exactly like a cache miss
(the fallible read returns null and the request proceeds to fresh
generation), and a failing backing-store write is a no-op that leaves the
store unchanged and does not change the success response. -/
theorem C8_cache_errors_nonfatal
    (kvRead : String → Except String (Option DigestCacheRecord))
    (kvWrite : String → DigestCacheRecord → Except String KVStore)
    (kv : KVStore) (t : DigestType) (today : String) (d : Digest) (e1 e2 : String)
    (hr : kvRead (getCacheKey t today) = .error e1)
    (hw : kvWrite (getCacheKey t today) ⟨d, today⟩ = .error e2) :
    getCacheFallible kvRead t today = none ∧
    (∀ (refresh : Bool) (generated : Digest),
        digestFlow kvRead t today refresh generated = freshResponse t generated) ∧
    successTail kvWrite kv t d today = (kv, freshResponse t d) := by
  have hg : getCacheFallible kvRead t today = none := by
    simp [getCacheFallible, hr]
  refine ⟨hg, ?_, ?_⟩
  · intro refresh generated
    cases refresh <;> simp [digestFlow, hg]
  · simp [successTail, setCacheFallible, hw]

/-- A concrete digest used by the closed cache witnesses. -/
def sampleDigest : Digest :=
  ⟨"overview", [], ["ai"], ⟨0, 0, none, none, "2026-10-12T00:00:00Z", .general, none, none⟩⟩

/-- A backing-store read that always fails. -/
def failingRead : String → Except String (Option DigestCacheRecord) :=
  fun _ => .error "kv down"

/-- A backing-store write that always fails. -/
def failingWrite : String → DigestCacheRecord → Except String KVStore :=
  fun _ _ => .error "kv down"

/-- The empty backing store. -/
def emptyStore : KVStore := fun _ => none

/-- Claim C8 witness: the failure guarantees evaluated with an
always-failing backing store. -/
theorem C8_cache_errors_nonfatal_witness :
    getCacheFallible failingRead .general "2026-10-12" = none ∧
    digestFlow failingRead .general "2026-10-12" false sampleDigest =
      freshResponse .general sampleDigest ∧
    successTail failingWrite emptyStore .general sampleDigest "2026-10-12" =
      (emptyStore, freshResponse .general sampleDigest) := by
  obtain ⟨h1, h2, h3⟩ := C8_cache_errors_nonfatal failingRead failingWrite emptyStore
    .general "2026-10-12" sampleDigest "kv down" "kv down" rfl rfl
  exact ⟨h1, h2 false sampleDigest, h3⟩

/-- Claim C9: a post with an empty `createdAt` is never classified old — the
cutoff test is false for it and a page step retains it — and the date-range
scan covers exactly the posts with a non-empty `createdAt`, yielding null for
both ends when no post carries a timestamp. -/
theorem C9_unknown_age (dateVal : String → Option Int) (hinv : dateVal "" = none)
    (cutoff : Int) :
    (∀ p : Post, p.createdAt = "" →
        isOldPost dateVal cutoff p = false ∧
        ∀ st : CollectState,
          processPage (isOldPost dateVal cutoff) st [p] = ⟨st.allPosts ++ [p], 0⟩) ∧
    (∀ ps : List Post, (∀ q ∈ ps, q.createdAt = "") →
        oldestPost dateVal ps = none ∧ newestPost dateVal ps = none) ∧
    (∀ (ps : List Post) (q : Post), q ∈ postsWithDates ps → q.createdAt ≠ "" ∧ q ∈ ps) := by
  refine ⟨?_, ?_, ?_⟩
  · intro p hp
    have hold : isOldPost dateVal cutoff p = false := by
      simp [isOldPost, hp, hinv]
    exact ⟨hold, fun st => by simp [processPage, hold]⟩
  · intro ps hall
    have hfilter : postsWithDates ps = [] := by
      rw [postsWithDates, List.filter_eq_nil_iff]
      intro q hq
      rw [hall q hq]
      decide
    constructor <;> simp [oldestPost, newestPost, hfilter]
  · intro ps q hq
    have hmem := List.mem_filter.mp hq
    refine ⟨?_, hmem.1⟩
    intro heq
    have h2 := hmem.2
    rw [heq] at h2
    exact absurd h2 (by decide)

/-- Claim C9 witness: the unknown-age guarantees evaluated on concrete posts
with and without timestamps. -/
theorem C9_unknown_age_witness :
    isOldPost jsDate 2 noDateSample = false ∧
    (oldestPost jsDate [noDateSample] = none ∧ newestPost jsDate [noDateSample] = none) ∧
    (samplePost.createdAt ≠ "" ∧ samplePost ∈ [samplePost, noDateSample]) := by
  obtain ⟨h1, h2, h3⟩ := C9_unknown_age jsDate (by decide) 2
  exact ⟨(h1 noDateSample rfl).1, h2 [noDateSample] (by decide),
    h3 [samplePost, noDateSample] samplePost (by decide)⟩

/-- An in-range 1-based index resolves to the ranked post at that position
(the default of `getD` is never used). -/
theorem jsElem_inRange (ps : List Post) (i : Int) (d : Post)
    (h1 : 1 ≤ i) (h2 : i ≤ (ps.length : Int)) :
    jsElem ps (i - 1) = some (ps.getD (i - 1).toNat d) := by
  have h0 : (0 : Int) ≤ i - 1 := by omega
  have hlt : (i - 1).toNat < ps.length := by omega
  rw [jsElem, if_pos h0, List.getD_eq_getElem?_getD, List.get?_eq_getElem?,
    List.getElem?_eq_getElem hlt]
  rfl

/-- A 1-based index outside `1..length` resolves to nothing. -/
theorem jsElem_outRange (ps : List Post) (i : Int)
    (h : i < 1 ∨ (ps.length : Int) < i) :
    jsElem ps (i - 1) = none := by
  rcases h with h | h
  · rw [jsElem, if_neg (by omega)]
  · rw [jsElem, if_pos (by omega), List.get?_eq_getElem?]
    exact List.getElem?_eq_none (by omega)

/-- Unfolding of the response mapping over one response entry. -/
theorem notablePostsWithData_cons (ranked : List Post) (n : NotableRef)
    (rest : List NotableRef) :
    notablePostsWithData ranked (n :: rest) =
      (match jsElem ranked (n.postIndex - 1) with
        | some p => (⟨p.toNotable, n.reason⟩ : NotableEntry) :: notablePostsWithData ranked rest
        | none => notablePostsWithData ranked rest) := by
  simp only [notablePostsWithData, notablePostsRaw, List.map_cons, List.filterMap_cons]
  cases jsElem ranked (n.postIndex - 1) <;> simp

/-- Claim C1 (amended): the notable-post output is exactly the response
entries whose 1-based `postIndex` lies in `1..length of the ranked list`,
each mapped to the ranked post at that position — out-of-range indices are
dropped and no entry has a null post body, but duplicate indices are NOT
dropped: every in-range occurrence, duplicate or not, produces its own
entry. -/
theorem C1_index_mapping (ranked : List Post) (ns : List NotableRef) (d : Post) :
    notablePostsWithData ranked ns =
      (ns.filter fun n =>
          decide (1 ≤ n.postIndex) && decide (n.postIndex ≤ (ranked.length : Int))).map
        fun n => ⟨(ranked.getD (n.postIndex - 1).toNat d).toNotable, n.reason⟩ := by
  induction ns with
  | nil => rfl
  | cons n rest ih =>
    rw [notablePostsWithData_cons, List.filter_cons]
    by_cases h : 1 ≤ n.postIndex ∧ n.postIndex ≤ (ranked.length : Int)
    · rw [jsElem_inRange ranked n.postIndex d h.1 h.2,
        if_pos (by simp only [Bool.and_eq_true, decide_eq_true_eq]; exact h),
        List.map_cons, ih]
    · rw [jsElem_outRange ranked n.postIndex (by omega),
        if_neg (by simp only [Bool.and_eq_true, decide_eq_true_eq]; exact h)]
      exact ih

/-- Claim C1 counterexample: a model response repeating the in-range index 1
against a one-post ranked list yields TWO notable-post entries for the same
ranked post — duplicate indices are not dropped. -/
theorem C1_counterexample :
    notablePostsWithData [samplePost]
        [⟨1, "first reason"⟩, ⟨1, "second reason"⟩] =
      [⟨samplePost.toNotable, "first reason"⟩, ⟨samplePost.toNotable, "second reason"⟩] ∧
    (notablePostsWithData [samplePost]
        [⟨1, "first reason"⟩, ⟨1, "second reason"⟩]).map NotableEntry.post =
      [samplePost.toNotable, samplePost.toNotable] := by
  decide

end BlueskyDigest
